import Mathlib

/-
Verification of the dunkin mobile storefront core:
the cart store reducer (src/unnamed/part_002), the box-selection engine and
the reservation submission flow (src/dunkin/src/screens/PickupScreen.tsx).

JavaScript numbers are embedded as ℚ for prices and ℤ for quantities;
optional / nullable fields become Option; the `x ?? null` normalisation in
the source collapses undefined and null, which Option models as none.
Client-generated ids (makeId) are nondeterministic in the source, so the
fresh id is passed as an explicit parameter.
-/

set_option autoImplicit false

namespace Dunkin

/-- `CartItemType` mirrors `type CartItemType = "donut" | "box"`. -/
inductive CartItemType where
  | donut
  | box
deriving DecidableEq, Repr

/-- `BoxChoice` mirrors `type BoxChoice = { donutId: string; qty: number }`. -/
structure BoxChoice where
  donutId : String
  qty : ℤ
deriving DecidableEq, Repr

/-- The `choices` payload of a box item: `{ boxSize: number; donuts: BoxChoice[] }`. -/
structure BoxChoicesPayload where
  boxSize : ℤ
  donuts : List BoxChoice
deriving DecidableEq, Repr

/-- `CartItem` mirrors the `CartItem` type of the cart store. -/
structure CartItem where
  id : String
  type : CartItemType
  productId : String
  name : String
  unitPrice : ℚ
  qty : ℤ
  imageUrl : Option String
  variant : Option String
  choices : Option BoxChoicesPayload
deriving DecidableEq, Repr

/-- `State` mirrors `type State = { items: CartItem[] }`. -/
structure State where
  items : List CartItem
deriving DecidableEq, Repr

/-- Payload of the ADD_DONUT action (the argument of `addDonut`). -/
structure DonutPayload where
  productId : String
  name : String
  unitPrice : ℚ
  qty : ℤ
  imageUrl : Option String
  variant : Option String
deriving DecidableEq, Repr

/-- Payload of the ADD_BOX action as built by the provider's `addBox`. -/
structure BoxPayload where
  productId : String
  name : String
  unitPrice : ℚ
  boxSize : ℤ
  donuts : List BoxChoice
  imageUrl : Option String
deriving DecidableEq, Repr

/-- `Action` mirrors the reducer's action union (LOAD is the startup restore). -/
inductive Action where
  | load (items : List CartItem)
  | clear
  | removeItem (cartItemId : String)
  | addDonut (payload : DonutPayload)
  | addBox (payload : BoxPayload)
  | setDonutQty (cartItemId : String) (qty : ℤ)
deriving DecidableEq, Repr

/-- The ADD_DONUT merge key used by `findIndex`:
`i.type === "donut" && i.productId === p.productId && (i.variant ?? null) === (p.variant ?? null)`. -/
def donutMatch (p : DonutPayload) (i : CartItem) : Bool :=
  i.type = CartItemType.donut && i.productId = p.productId && i.variant = p.variant

/-- The in-place update `copy[idx] = { ...copy[idx], qty: copy[idx].qty + p.qty }`
applied at the first index found by `findIndex`. -/
def mergeFirst (p : DonutPayload) : List CartItem → List CartItem
  | [] => []
  | i :: rest =>
      if donutMatch p i then { i with qty := i.qty + p.qty } :: rest
      else i :: mergeFirst p rest

/-- The fresh donut line item built in the ADD_DONUT branch. -/
def newDonutItem (freshId : String) (p : DonutPayload) : CartItem :=
  { id := freshId
    type := CartItemType.donut
    productId := p.productId
    name := p.name
    unitPrice := p.unitPrice
    qty := p.qty
    imageUrl := p.imageUrl
    variant := p.variant
    choices := none }

/-- The fresh box line item built in the ADD_BOX branch, with the provider's
payload (`qty: 1`, `choices: { boxSize, donuts }`). -/
def newBoxItem (freshId : String) (p : BoxPayload) : CartItem :=
  { id := freshId
    type := CartItemType.box
    productId := p.productId
    name := p.name
    unitPrice := p.unitPrice
    qty := 1
    imageUrl := p.imageUrl
    variant := none
    choices := some { boxSize := p.boxSize, donuts := p.donuts } }

/-- The cart reducer, case by case from the `switch` in `reducer`.
`freshId` stands for the value `makeId()` would have produced. -/
def reducer (freshId : String) (state : State) (action : Action) : State :=
  match action with
  | Action.load items => { items := items }
  | Action.clear => { items := [] }
  | Action.removeItem cid => { items := state.items.filter (fun i => i.id ≠ cid) }
  | Action.addDonut p =>
      if state.items.any (donutMatch p) then { items := mergeFirst p state.items }
      else { items := newDonutItem freshId p :: state.items }
  | Action.addBox p => { items := newBoxItem freshId p :: state.items }
  | Action.setDonutQty cid q =>
      { items :=
          state.items.map (fun i =>
            if i.id ≠ cid then i
            else if i.type ≠ CartItemType.donut then i
            else { i with qty := max 1 q }) }

/-- Public `addDonut` of the cart context: dispatches ADD_DONUT. -/
def addDonut (freshId : String) (p : DonutPayload) (s : State) : State :=
  reducer freshId s (Action.addDonut p)

/-- Public `addBox` of the cart context: dispatches ADD_BOX with `qty: 1`. -/
def addBox (freshId : String) (p : BoxPayload) (s : State) : State :=
  reducer freshId s (Action.addBox p)

/-- Public `removeItem` of the cart context. -/
def removeItem (cid : String) (s : State) : State :=
  reducer "" s (Action.removeItem cid)

/-- Public `clear` of the cart context. -/
def clear (s : State) : State :=
  reducer "" s Action.clear

/-- Public `setDonutQty` of the cart context. -/
def setDonutQty (cid : String) (q : ℤ) (s : State) : State :=
  reducer "" s (Action.setDonutQty cid q)

/-- `totalCount`: `items.reduce((sum, i) => sum + (i.type === "donut" ? i.qty : i.qty), 0)`. -/
def totalCount (s : State) : ℤ :=
  s.items.foldl (fun sum i => sum + (if i.type = CartItemType.donut then i.qty else i.qty)) 0

/-- `totalPrice`: `items.reduce((sum, i) => sum + i.unitPrice * i.qty, 0)`. -/
def totalPrice (s : State) : ℚ :=
  s.items.foldl (fun sum i => sum + i.unitPrice * (i.qty : ℚ)) 0

/-
Box Selection Engine (PickupScreen.tsx, box builder screen).
`selected` is a JS object keyed by donutId; JS objects keep string keys in
insertion order and never hold duplicate keys, so it is embedded as an
association list: `{ ...prev, [d]: n }` replaces the value of an existing
key in place (setKey) and appends a fresh key at the end; `delete copy[d]`
removes the key (delKey).  Counts are ℕ (they start at 0 and move by 1).
-/

/-- Selection state: donutId-keyed counter object, in key insertion order. -/
abbrev Sel := List (String × ℕ)

/-- `prev[donutId] ?? 0`. -/
def lookupD : Sel → String → ℕ
  | [], _ => 0
  | (k, v) :: rest, d => if k = d then v else lookupD rest d

/-- `{ ...prev, [d]: n }`: replace in place if the key exists, else append. -/
def setKey : Sel → String → ℕ → Sel
  | [], d, n => [(d, n)]
  | (k, v) :: rest, d, n => if k = d then (k, n) :: rest else (k, v) :: setKey rest d n

/-- `delete copy[d]` on an object (keys are unique in any reachable state). -/
def delKey : Sel → String → Sel
  | [], _ => []
  | (k, v) :: rest, d => if k = d then rest else (k, v) :: delKey rest d

/-- `totalSelected`: `Object.values(selected).reduce((sum, n) => sum + n, 0)`. -/
def totalSelected (sel : Sel) : ℕ :=
  sel.foldl (fun sum p => sum + p.2) 0

/-- `remaining = boxSize - totalSelected` (a JS number, possibly negative). -/
def remaining (capacity : ℕ) (sel : Sel) : ℤ :=
  (capacity : ℤ) - (totalSelected sel : ℤ)

/-- `inc(donutId)`: no-op when `remaining <= 0`, else bump the count (default 0). -/
def inc (capacity : ℕ) (donutId : String) (sel : Sel) : Sel :=
  if remaining capacity sel ≤ 0 then sel
  else setKey sel donutId (lookupD sel donutId + 1)

/-- `dec(donutId)`: delete the entry when the current count is `<= 1`, else
decrement it. -/
def dec (donutId : String) (sel : Sel) : Sel :=
  if lookupD sel donutId ≤ 1 then delKey sel donutId
  else setKey sel donutId (lookupD sel donutId - 1)

/-- One user operation on the box builder. -/
inductive SelOp where
  | inc (donutId : String)
  | dec (donutId : String)
  | reset
deriving DecidableEq, Repr

/-- Apply one operation (`reset` is `setSelected({})` after confirmation). -/
def applyOp (capacity : ℕ) (sel : Sel) : SelOp → Sel
  | SelOp.inc d => inc capacity d sel
  | SelOp.dec d => dec d sel
  | SelOp.reset => []

/-- Run a sequence of operations from the empty selection. -/
def runOps (capacity : ℕ) (ops : List SelOp) : Sel :=
  ops.foldl (applyOp capacity) []

/-- `Object.entries(selected).map(([donutId, qty]) => ({ donutId, qty }))`. -/
def selectionChoices (sel : Sel) : List BoxChoice :=
  sel.map (fun p => { donutId := p.1, qty := (p.2 : ℤ) })

/-- Outcome of `addToCart` on the box builder screen. -/
inductive ConfirmResult where
  | boxNotFull
  | added (snapshot : BoxChoicesPayload)
deriving DecidableEq, Repr

/-- `addToCart()` of the box builder: alert "Doos niet vol" and stop unless
`totalSelected === boxSize`; otherwise build the choices list and hand it to
the cart's `addBox`. Returns the outcome together with the cart after the
call. -/
def addToCart (capacity : ℕ) (sel : Sel) (boxId boxName : String) (boxPrice : ℚ)
    (boxImageUrl : Option String) (freshId : String) (cart : State) :
    ConfirmResult × State :=
  if totalSelected sel ≠ capacity then (ConfirmResult.boxNotFull, cart)
  else
    (ConfirmResult.added { boxSize := (capacity : ℤ), donuts := selectionChoices sel },
     addBox freshId
       { productId := boxId
         name := boxName
         unitPrice := boxPrice
         boxSize := (capacity : ℤ)
         donuts := selectionChoices sel
         imageUrl := boxImageUrl }
       cart)

/-
Reservation Submission Flow (PickupScreen.tsx, `onPlaceReservation`).
The two supabase inserts are the environment's responses: the reservation
insert either yields the generated id or an error message, the line-items
insert either succeeds or fails on the rows it was given.
-/

/-- Result of one remote call: data or an error with a message. -/
inductive RemoteResult (α : Type) where
  | ok (value : α)
  | err (message : String)
deriving DecidableEq, Repr

/-- One row of the `reservation_items` insert, as built in the `rows` map. -/
structure ReservationRow where
  reservationId : String
  productId : String
  productType : CartItemType
  qty : ℤ
  unitPrice : ℚ
  name : String
  variant : Option String
  choices : Option BoxChoicesPayload
deriving DecidableEq, Repr

/-- `items.map((i) => ({ reservation_id, product_id, product_type, qty,
unit_price, name, variant: i.variant ?? null, choices: i.choices ?? null }))`. -/
def reservationRows (reservationId : String) (items : List CartItem) : List ReservationRow :=
  items.map (fun i =>
    { reservationId := reservationId
      productId := i.productId
      productType := i.type
      qty := i.qty
      unitPrice := i.unitPrice
      name := i.name
      variant := i.variant
      choices := i.choices })

/-- JS `String.prototype.trim`: strip whitespace from both ends (embedded on
the character list so that it is kernel-computable). -/
def trimStr (s : String) : String :=
  String.mk (((s.data.dropWhile Char.isWhitespace).reverse.dropWhile Char.isWhitespace).reverse)

/-- What the user is told at the end of `onPlaceReservation`. -/
inductive SubmitOutcome where
  | emptyCart
  | nameRequired
  | remoteError (message : String)
  | success
deriving DecidableEq, Repr

/-- Observable result of a submission: the reported outcome, the cart after
the call, which remote inserts were attempted, and the rows sent to
`reservation_items` (none when that insert never ran). -/
structure SubmitResult where
  outcome : SubmitOutcome
  cart : State
  reservationInsertAttempted : Bool
  itemsInsertAttempted : Bool
  rowsSent : Option (List ReservationRow)
deriving DecidableEq, Repr

/-- `onPlaceReservation`: the two guards, then the reservation insert, then
the line-items insert, then `clear()`; a thrown error is caught and alerted
with its message, with no compensating action. -/
def onPlaceReservation (cart : State) (customerName : String)
    (insertReservation : RemoteResult String)
    (insertItems : List ReservationRow → RemoteResult Unit) : SubmitResult :=
  if cart.items.length = 0 then
    { outcome := SubmitOutcome.emptyCart, cart := cart
      reservationInsertAttempted := false, itemsInsertAttempted := false
      rowsSent := none }
  else if trimStr customerName = "" then
    { outcome := SubmitOutcome.nameRequired, cart := cart
      reservationInsertAttempted := false, itemsInsertAttempted := false
      rowsSent := none }
  else
    match insertReservation with
    | RemoteResult.err m =>
        { outcome := SubmitOutcome.remoteError m, cart := cart
          reservationInsertAttempted := true, itemsInsertAttempted := false
          rowsSent := none }
    | RemoteResult.ok reservationId =>
        let rows := reservationRows reservationId cart.items
        match insertItems rows with
        | RemoteResult.err m =>
            { outcome := SubmitOutcome.remoteError m, cart := cart
              reservationInsertAttempted := true, itemsInsertAttempted := true
              rowsSent := some rows }
        | RemoteResult.ok _ =>
            { outcome := SubmitOutcome.success, cart := clear cart
              reservationInsertAttempted := true, itemsInsertAttempted := true
              rowsSent := some rows }

/-
The spec-worded merge key for `addDonut` (claim C2): same `productId` and
same `variant`, with no condition on the item's kind.  The code's key
(`donutMatch`) additionally requires `i.type === "donut"`.
-/

/-- Merge key as the spec words it: `productId` and `variant` only. -/
def specMergeKey (p : DonutPayload) (i : CartItem) : Bool :=
  i.productId = p.productId && i.variant = p.variant

/-- In-place increment of the first item matching the spec-worded key. -/
def specMergeFirst (p : DonutPayload) : List CartItem → List CartItem
  | [] => []
  | i :: rest =>
      if specMergeKey p i then { i with qty := i.qty + p.qty } :: rest
      else i :: specMergeFirst p rest

/-- Claim C2 as the spec words it, at one input: when some existing item has
the same `productId` and `variant`, `addDonut` increments that item in
place; otherwise it prepends a fresh item. -/
def addDonutSpecClaim (freshId : String) (p : DonutPayload) (s : State) : Prop :=
  if s.items.any (specMergeKey p) then
    (addDonut freshId p s).items = specMergeFirst p s.items
  else
    (addDonut freshId p s).items = newDonutItem freshId p :: s.items

/-- A cart holding one box whose `productId` is "p1" and whose variant is
absent, as `addBox` would create it. -/
def boxCartC2 : State :=
  { items := [{ id := "b1"
                type := CartItemType.box
                productId := "p1"
                name := "Box of 6"
                unitPrice := 12
                qty := 1
                imageUrl := none
                variant := none
                choices := some { boxSize := 6, donuts := [] } }] }

/-- An `addDonut` payload sharing the box's `productId` and absent variant. -/
def donutPayloadC2 : DonutPayload :=
  { productId := "p1", name := "Glazed", unitPrice := 2, qty := 2
    imageUrl := none, variant := none }

section Lemmas

/-- Left fold of pointwise addition equals the initial value plus the sum. -/
theorem foldl_add_map {α M : Type} [AddCommMonoid M] (f : α → M) :
    ∀ (l : List α) (a : M), l.foldl (fun s i => s + f i) a = a + (l.map f).sum := by
  intro l
  induction l with
  | nil => intro a; simp
  | cons x xs ih => intro a; simp [ih, add_assoc]

/-- `mergeFirst` updates exactly the first code-key match, in place. -/
theorem mergeFirst_spec (p : DonutPayload) :
    ∀ (l : List CartItem), (∃ i ∈ l, donutMatch p i = true) →
    ∃ j, ∃ hj : j < l.length,
      donutMatch p (l.get ⟨j, hj⟩) = true ∧
      (∀ k, ∀ hk : k < l.length, k < j → donutMatch p (l.get ⟨k, hk⟩) = false) ∧
      mergeFirst p l =
        l.set j { l.get ⟨j, hj⟩ with qty := (l.get ⟨j, hj⟩).qty + p.qty } := by
  intro l
  induction l with
  | nil => rintro ⟨i, hi, _⟩; exact absurd hi (List.not_mem_nil i)
  | cons x xs ih =>
      intro hex
      by_cases hx : donutMatch p x = true
      · refine ⟨0, Nat.succ_pos _, hx, ?_, ?_⟩
        · intro k hk hk0; omega
        · simp [mergeFirst, hx]
      · have hex' : ∃ i ∈ xs, donutMatch p i = true := by
          rcases hex with ⟨i, hi, hmi⟩
          rcases List.mem_cons.mp hi with h | h
          · exact absurd (h ▸ hmi) hx
          · exact ⟨i, h, hmi⟩
        rcases ih hex' with ⟨j, hj, hmatch, hmin, heq⟩
        refine ⟨j + 1, Nat.succ_lt_succ hj, ?_, ?_, ?_⟩
        · simpa using hmatch
        · intro k hk hkj
          cases k with
          | zero => simpa using (Bool.not_eq_true _).mp hx
          | succ k' =>
              have hk' : k' < xs.length := Nat.lt_of_succ_lt_succ hk
              have := hmin k' hk' (Nat.lt_of_succ_lt_succ hkj)
              simpa using this
        · simp [mergeFirst, hx, heq]

end Lemmas

/-- Claim C5: `totalPrice` is the sum over items of `unitPrice × quantity`
and `totalCount` is the sum of quantities. -/
theorem C5_totals_are_sums (s : State) :
    totalPrice s = (s.items.map (fun i => i.unitPrice * (i.qty : ℚ))).sum ∧
    totalCount s = (s.items.map (fun i => i.qty)).sum := by
  constructor
  · simpa using foldl_add_map (fun i : CartItem => i.unitPrice * (i.qty : ℚ)) s.items 0
  · have h : totalCount s = s.items.foldl (fun sum i => sum + i.qty) 0 := by
      unfold totalCount
      congr 1
      funext sum i
      rw [ite_self]
    rw [h]
    simpa using foldl_add_map (fun i : CartItem => i.qty) s.items 0

/-- Claim C7: `addBox` always prepends a fresh line item with quantity 1 and
the box payload, leaving every existing item unchanged (no merging). -/
theorem C7_addBox_always_prepends (freshId : String) (p : BoxPayload) (s : State) :
    ∃ hd, (addBox freshId p s).items = hd :: s.items ∧
      hd.qty = 1 ∧
      hd.type = CartItemType.box ∧
      hd.id = freshId ∧
      hd.productId = p.productId ∧
      hd.choices = some { boxSize := p.boxSize, donuts := p.donuts } ∧
      (addBox freshId p s).items.length = s.items.length + 1 := by
  exact ⟨newBoxItem freshId p, rfl, rfl, rfl, rfl, rfl, rfl, by simp [addBox, reducer]⟩

/-- Claim C8: `removeItem` keeps exactly the items whose id differs, in
order; when no item has the id, the cart is unchanged; when exactly one item
has it, that item alone is dropped. -/
theorem C8_removeItem_filters (s : State) (cid : String) :
    (removeItem cid s).items = s.items.filter (fun i => i.id ≠ cid) ∧
    ((∀ i ∈ s.items, i.id ≠ cid) → removeItem cid s = s) ∧
    (∀ pre it post, s.items = pre ++ it :: post → it.id = cid →
      (∀ i ∈ pre, i.id ≠ cid) → (∀ i ∈ post, i.id ≠ cid) →
      (removeItem cid s).items = pre ++ post) := by
  refine ⟨rfl, ?_, ?_⟩
  · intro hall
    obtain ⟨items⟩ := s
    simp only [removeItem, reducer]
    congr 1
    exact List.filter_eq_self.mpr (fun a ha => by simpa using hall a ha)
  · intro pre it post hsplit hit hpre hpost
    have hfpre : pre.filter (fun i => !decide (i.id = cid)) = pre :=
      List.filter_eq_self.mpr (fun a ha => by simpa using hpre a ha)
    have hfpost : post.filter (fun i => !decide (i.id = cid)) = post :=
      List.filter_eq_self.mpr (fun a ha => by simpa using hpost a ha)
    simp [removeItem, reducer, hsplit, List.filter_append, hfpre, hfpost, hit]

instance (freshId : String) (p : DonutPayload) (s : State) :
    Decidable (addDonutSpecClaim freshId p s) := by
  unfold addDonutSpecClaim
  infer_instance

/-- Claim C2 counterexample: the spec-worded merge key ignores the item's
kind, but the code's `findIndex` also requires `i.type === "donut"`. On a
cart holding one box with productId "p1" and absent variant, adding a donut
with productId "p1" and absent variant prepends a new item instead of
incrementing the box, so the claim as stated fails at this input. -/
theorem C2_counterexample : ¬ addDonutSpecClaim "n1" donutPayloadC2 boxCartC2 := by
  decide

/-- Claim C2 (amended): the merge happens only when an existing item of kind
donut shares `productId` and `variant`; then the first such item is updated
in place and the list is otherwise unchanged; when no item of kind donut
matches, a fresh item is prepended. -/
theorem C2_addDonut_merge_or_prepend (freshId : String) (p : DonutPayload) (s : State) :
    ((∃ i ∈ s.items, donutMatch p i = true) →
      ∃ j, ∃ hj : j < s.items.length,
        donutMatch p (s.items.get ⟨j, hj⟩) = true ∧
        (∀ k, ∀ hk : k < s.items.length, k < j → donutMatch p (s.items.get ⟨k, hk⟩) = false) ∧
        (addDonut freshId p s).items =
          s.items.set j { s.items.get ⟨j, hj⟩ with qty := (s.items.get ⟨j, hj⟩).qty + p.qty }) ∧
    ((∀ i ∈ s.items, donutMatch p i = false) →
      (addDonut freshId p s).items = newDonutItem freshId p :: s.items) := by
  constructor
  · intro hex
    have hany : s.items.any (donutMatch p) = true := List.any_eq_true.mpr hex
    rcases mergeFirst_spec p s.items hex with ⟨j, hj, h1, h2, h3⟩
    exact ⟨j, hj, h1, h2, by simp [addDonut, reducer, hany, h3]⟩
  · intro hnone
    have hany : s.items.any (donutMatch p) = false := by
      rw [List.any_eq_false]
      intro i hi
      simp [hnone i hi]
    simp [addDonut, reducer, hany]

/-- Claim C10: when `addDonut` merges, the merged item keeps its original
id, name, unit price, image url, variant and kind, only its quantity grows
by the payload's quantity, and every item at another position is unchanged. -/
theorem C10_merge_keeps_original_fields (freshId : String) (p : DonutPayload) (s : State)
    (j : ℕ) (hj : j < s.items.length)
    (hmatch : donutMatch p (s.items.get ⟨j, hj⟩) = true)
    (hfirst : ∀ k, ∀ hk : k < s.items.length, k < j → donutMatch p (s.items.get ⟨k, hk⟩) = false) :
    ∃ hj' : j < (addDonut freshId p s).items.length,
      (addDonut freshId p s).items.length = s.items.length ∧
      ((addDonut freshId p s).items.get ⟨j, hj'⟩).id = (s.items.get ⟨j, hj⟩).id ∧
      ((addDonut freshId p s).items.get ⟨j, hj'⟩).name = (s.items.get ⟨j, hj⟩).name ∧
      ((addDonut freshId p s).items.get ⟨j, hj'⟩).unitPrice = (s.items.get ⟨j, hj⟩).unitPrice ∧
      ((addDonut freshId p s).items.get ⟨j, hj'⟩).imageUrl = (s.items.get ⟨j, hj⟩).imageUrl ∧
      ((addDonut freshId p s).items.get ⟨j, hj'⟩).variant = (s.items.get ⟨j, hj⟩).variant ∧
      ((addDonut freshId p s).items.get ⟨j, hj'⟩).type = (s.items.get ⟨j, hj⟩).type ∧
      ((addDonut freshId p s).items.get ⟨j, hj'⟩).qty = (s.items.get ⟨j, hj⟩).qty + p.qty ∧
      (∀ k, ∀ hk : k < s.items.length, k ≠ j →
        ∃ hk' : k < (addDonut freshId p s).items.length,
          (addDonut freshId p s).items.get ⟨k, hk'⟩ = s.items.get ⟨k, hk⟩) := by
  have hex : ∃ i ∈ s.items, donutMatch p i = true :=
    ⟨s.items.get ⟨j, hj⟩, List.get_mem s.items j hj, hmatch⟩
  have hany : s.items.any (donutMatch p) = true := List.any_eq_true.mpr hex
  rcases mergeFirst_spec p s.items hex with ⟨j₀, hj₀, h1, h2, h3⟩
  have hjj : j₀ = j := by
    rcases Nat.lt_trichotomy j₀ j with h | h | h
    · have hf := hfirst j₀ hj₀ h
      rw [hf] at h1
      exact Bool.noConfusion h1
    · exact h
    · have hf := h2 j hj h
      rw [hf] at hmatch
      exact Bool.noConfusion hmatch
  subst hjj
  have hout : (addDonut freshId p s).items =
      s.items.set j₀ { s.items.get ⟨j₀, hj₀⟩ with qty := (s.items.get ⟨j₀, hj₀⟩).qty + p.qty } := by
    simp [addDonut, reducer, hany, h3]
  have hlen : (addDonut freshId p s).items.length = s.items.length := by
    rw [hout, List.length_set]
  refine ⟨by omega, hlen, ?_⟩
  have hget : (addDonut freshId p s).items.get ⟨j₀, by omega⟩ =
      { s.items.get ⟨j₀, hj₀⟩ with qty := (s.items.get ⟨j₀, hj₀⟩).qty + p.qty } := by
    simp [hout]
  refine ⟨?_, ?_, ?_, ?_, ?_, ?_, ?_, ?_⟩
  · rw [hget]
  · rw [hget]
  · rw [hget]
  · rw [hget]
  · rw [hget]
  · rw [hget]
  · rw [hget]
  · intro k hk hne
    refine ⟨by omega, ?_⟩
    simp only [List.get_eq_getElem, hout]
    simp [List.getElem_set_ne, Ne.symm hne]

/-- Claim C9: `setDonutQty` maps over the items; the one whose id matches
and whose kind is donut gets quantity `max 1 qty` (hence at least 1) with
all other fields kept, and box items or non-matching ids are untouched. -/
theorem C9_setDonutQty_clamps_to_one (s : State) (cid : String) (q : ℤ) :
    (setDonutQty cid q s).items.length = s.items.length ∧
    ∀ j, ∀ hj : j < s.items.length,
      ∃ hj' : j < (setDonutQty cid q s).items.length,
        (((s.items.get ⟨j, hj⟩).id = cid ∧ (s.items.get ⟨j, hj⟩).type = CartItemType.donut) →
          (setDonutQty cid q s).items.get ⟨j, hj'⟩ =
            { s.items.get ⟨j, hj⟩ with qty := max 1 q } ∧
          1 ≤ ((setDonutQty cid q s).items.get ⟨j, hj'⟩).qty) ∧
        (((s.items.get ⟨j, hj⟩).id ≠ cid ∨ (s.items.get ⟨j, hj⟩).type ≠ CartItemType.donut) →
          (setDonutQty cid q s).items.get ⟨j, hj'⟩ = s.items.get ⟨j, hj⟩) := by
  have hlen : (setDonutQty cid q s).items.length = s.items.length := by
    simp [setDonutQty, reducer]
  refine ⟨hlen, ?_⟩
  intro j hj
  have hj' : j < (setDonutQty cid q s).items.length := by omega
  have hget : (setDonutQty cid q s).items.get ⟨j, hj'⟩ =
      (if (s.items.get ⟨j, hj⟩).id ≠ cid then s.items.get ⟨j, hj⟩
       else if (s.items.get ⟨j, hj⟩).type ≠ CartItemType.donut then s.items.get ⟨j, hj⟩
       else { s.items.get ⟨j, hj⟩ with qty := max 1 q }) := by
    simp [setDonutQty, reducer]
  refine ⟨hj', ?_, ?_⟩
  · rintro ⟨hid, htype⟩
    rw [hget, if_neg (not_not_intro hid), if_neg (not_not_intro htype)]
    exact ⟨rfl, le_max_left 1 q⟩
  · intro hother
    rcases hother with hid | htype
    · rw [hget, if_pos hid]
    · by_cases hid : (s.items.get ⟨j, hj⟩).id = cid
      · rw [hget, if_neg (not_not_intro hid), if_pos htype]
      · rw [hget, if_pos hid]

section SelectionLemmas

/-- `totalSelected` is the sum of the stored counts. -/
theorem totalSelected_eq_sum (sel : Sel) : totalSelected sel = (sel.map Prod.snd).sum := by
  simpa using foldl_add_map (Prod.snd) sel 0

/-- Replacing (or appending) the value of key `d` changes the total by the
difference with the old value. -/
theorem setKey_total (s : Sel) (d : String) (n : ℕ) :
    totalSelected (setKey s d n) + lookupD s d = totalSelected s + n := by
  induction s with
  | nil => simp [setKey, lookupD, totalSelected]
  | cons hd tl ih =>
      obtain ⟨k, v⟩ := hd
      by_cases hk : k = d
      · simp only [setKey, lookupD, if_pos hk, totalSelected_eq_sum, List.map_cons,
          List.sum_cons]
        omega
      · simp only [setKey, lookupD, if_neg hk, totalSelected_eq_sum, List.map_cons,
          List.sum_cons] at ih ⊢
        omega

/-- Every entry of `setKey s d n` is an entry of `s` or carries the value `n`. -/
theorem mem_setKey {s : Sel} {d : String} {n : ℕ} {p : String × ℕ}
    (hp : p ∈ setKey s d n) : p ∈ s ∨ p.2 = n := by
  induction s with
  | nil =>
      simp only [setKey, List.mem_singleton] at hp
      exact Or.inr (by rw [hp])
  | cons hd tl ih =>
      obtain ⟨k, v⟩ := hd
      by_cases hk : k = d
      · simp only [setKey, if_pos hk, List.mem_cons] at hp
        rcases hp with hp | hp
        · exact Or.inr (by rw [hp])
        · exact Or.inl (List.mem_cons_of_mem _ hp)
      · simp only [setKey, if_neg hk, List.mem_cons] at hp
        rcases hp with hp | hp
        · exact Or.inl (by simp [hp])
        · rcases ih hp with h | h
          · exact Or.inl (List.mem_cons_of_mem _ h)
          · exact Or.inr h

/-- `delKey` only drops entries. -/
theorem delKey_sublist (s : Sel) (d : String) : (delKey s d).Sublist s := by
  induction s with
  | nil => simp [delKey]
  | cons hd tl ih =>
      obtain ⟨k, v⟩ := hd
      by_cases hk : k = d
      · simp only [delKey, if_pos hk]
        exact List.sublist_cons_self _ _
      · simp only [delKey, if_neg hk]
        exact List.Sublist.cons₂ _ ih

/-- Deleting a key cannot raise the total. -/
theorem delKey_total_le (s : Sel) (d : String) :
    totalSelected (delKey s d) ≤ totalSelected s := by
  induction s with
  | nil => simp [delKey]
  | cons hd tl ih =>
      obtain ⟨k, v⟩ := hd
      by_cases hk : k = d
      · simp only [delKey, if_pos hk, totalSelected_eq_sum, List.map_cons, List.sum_cons]
        omega
      · simp only [delKey, if_neg hk, totalSelected_eq_sum, List.map_cons,
          List.sum_cons] at ih ⊢
        omega

/-- Any key of `setKey s d n` is a key of `s` or the key `d`. -/
theorem keys_setKey_subset {k' : String} (s : Sel) (d : String) (n : ℕ)
    (h : k' ∈ (setKey s d n).map Prod.fst) : k' ∈ s.map Prod.fst ∨ k' = d := by
  induction s with
  | nil => simpa [setKey] using h
  | cons hd tl ih =>
      obtain ⟨k, v⟩ := hd
      by_cases hk : k = d
      · exact Or.inl (by simpa [setKey, if_pos hk] using h)
      · simp only [setKey, if_neg hk, List.map_cons, List.mem_cons] at h ⊢
        rcases h with h | h
        · exact Or.inl (Or.inl h)
        · rcases ih h with h' | h'
          · exact Or.inl (Or.inr h')
          · exact Or.inr h'

/-- `setKey` keeps keys duplicate-free. -/
theorem nodup_setKey (s : Sel) (d : String) (n : ℕ)
    (h : (s.map Prod.fst).Nodup) : ((setKey s d n).map Prod.fst).Nodup := by
  induction s with
  | nil => simp [setKey]
  | cons hd tl ih =>
      obtain ⟨k, v⟩ := hd
      rw [List.map_cons, List.nodup_cons] at h
      by_cases hk : k = d
      · simpa [setKey, if_pos hk, List.nodup_cons] using h
      · simp only [setKey, if_neg hk, List.map_cons, List.nodup_cons]
        refine ⟨?_, ih h.2⟩
        intro hmem
        rcases keys_setKey_subset tl d n hmem with h' | h'
        · exact h.1 h'
        · exact hk h'

/-- `delKey` keeps keys duplicate-free. -/
theorem nodup_delKey (s : Sel) (d : String)
    (h : (s.map Prod.fst).Nodup) : ((delKey s d).map Prod.fst).Nodup :=
  ((delKey_sublist s d).map Prod.fst).nodup h

/-- After deleting key `d` from a duplicate-free selection, `d` is gone. -/
theorem notMem_keys_delKey (s : Sel) (d : String)
    (h : (s.map Prod.fst).Nodup) : d ∉ (delKey s d).map Prod.fst := by
  induction s with
  | nil => simp [delKey]
  | cons hd tl ih =>
      obtain ⟨k, v⟩ := hd
      rw [List.map_cons, List.nodup_cons] at h
      by_cases hk : k = d
      · simpa [delKey, if_pos hk, hk] using h.1
      · simp only [delKey, if_neg hk, List.map_cons, List.mem_cons]
        rintro (h' | h')
        · exact hk h'.symm
        · exact ih h.2 h'

/-- The reachable-state invariant of the box selection engine. -/
def SelInv (capacity : ℕ) (s : Sel) : Prop :=
  totalSelected s ≤ capacity ∧ (∀ p ∈ s, 1 ≤ p.2) ∧ (s.map Prod.fst).Nodup

/-- Each engine operation preserves the invariant. -/
theorem selInv_applyOp (capacity : ℕ) (s : Sel) (op : SelOp)
    (h : SelInv capacity s) : SelInv capacity (applyOp capacity s op) := by
  obtain ⟨htot, hpos, hnd⟩ := h
  cases op with
  | inc d =>
      simp only [applyOp, inc]
      by_cases hr : remaining capacity s ≤ 0
      · rw [if_pos hr]
        exact ⟨htot, hpos, hnd⟩
      · rw [if_neg hr]
        have hlt : totalSelected s < capacity := by
          unfold remaining at hr
          omega
        have htot' := setKey_total s d (lookupD s d + 1)
        refine ⟨by omega, ?_, nodup_setKey s d _ hnd⟩
        intro p hp
        rcases mem_setKey hp with h' | h'
        · exact hpos p h'
        · omega
  | dec d =>
      simp only [applyOp, dec]
      by_cases hc : lookupD s d ≤ 1
      · rw [if_pos hc]
        refine ⟨le_trans (delKey_total_le s d) htot, ?_, nodup_delKey s d hnd⟩
        intro p hp
        exact hpos p ((delKey_sublist s d).subset hp)
      · rw [if_neg hc]
        have htot' := setKey_total s d (lookupD s d - 1)
        refine ⟨by omega, ?_, nodup_setKey s d _ hnd⟩
        intro p hp
        rcases mem_setKey hp with h' | h'
        · exact hpos p h'
        · omega
  | reset =>
      exact ⟨by simp [applyOp, totalSelected], by simp [applyOp], by simp [applyOp]⟩

/-- The invariant holds along any run of operations. -/
theorem selInv_foldl (capacity : ℕ) (ops : List SelOp) :
    ∀ s, SelInv capacity s → SelInv capacity (ops.foldl (applyOp capacity) s) := by
  induction ops with
  | nil => intro s h; exact h
  | cons op rest ih => intro s h; exact ih _ (selInv_applyOp capacity s op h)

/-- Every state reached from the empty selection satisfies the invariant. -/
theorem selInv_runOps (capacity : ℕ) (ops : List SelOp) :
    SelInv capacity (runOps capacity ops) :=
  selInv_foldl capacity ops []
    ⟨by simp [totalSelected], by simp, by simp⟩

end SelectionLemmas

/-- Claim C3: from the empty selection, every state reachable by
increment/decrement/reset keeps `totalSelected ≤ capacity`, keeps every
stored count at least 1, makes `inc` a no-op once the capacity is reached,
and `dec` on a count-1 donut removes its entry entirely. -/
theorem C3_selection_invariant (capacity : ℕ) (ops : List SelOp) :
    totalSelected (runOps capacity ops) ≤ capacity ∧
    (∀ p ∈ runOps capacity ops, 1 ≤ p.2) ∧
    (∀ d, totalSelected (runOps capacity ops) = capacity →
      inc capacity d (runOps capacity ops) = runOps capacity ops) ∧
    (∀ d, lookupD (runOps capacity ops) d = 1 →
      ∀ n, (d, n) ∉ dec d (runOps capacity ops)) := by
  obtain ⟨htot, hpos, hnd⟩ := selInv_runOps capacity ops
  refine ⟨htot, hpos, ?_, ?_⟩
  · intro d hfull
    unfold inc
    rw [if_pos (by unfold remaining; omega)]
  · intro d h1 n hmem
    rw [dec, if_pos (by omega)] at hmem
    exact notMem_keys_delKey (runOps capacity ops) d hnd
      (List.mem_map.mpr ⟨(d, n), hmem, rfl⟩)

/-- Claim C4: `addToCart` reports "box not full" and leaves the cart alone
whenever the selection total differs from the capacity; at capacity it
builds the `{capacity, selections}` snapshot from the mapping entries in
order and hands exactly that snapshot to the cart's `addBox`. -/
theorem C4_confirm_requires_full_box (capacity : ℕ) (sel : Sel) (boxId boxName : String)
    (boxPrice : ℚ) (boxImageUrl : Option String) (freshId : String) (cart : State) :
    (totalSelected sel ≠ capacity →
      addToCart capacity sel boxId boxName boxPrice boxImageUrl freshId cart =
        (ConfirmResult.boxNotFull, cart)) ∧
    (totalSelected sel = capacity →
      (addToCart capacity sel boxId boxName boxPrice boxImageUrl freshId cart).1 =
        ConfirmResult.added { boxSize := (capacity : ℤ), donuts := selectionChoices sel } ∧
      (addToCart capacity sel boxId boxName boxPrice boxImageUrl freshId cart).2 =
        addBox freshId
          { productId := boxId, name := boxName, unitPrice := boxPrice
            boxSize := (capacity : ℤ), donuts := selectionChoices sel
            imageUrl := boxImageUrl } cart) := by
  constructor
  · intro hne
    rw [addToCart, if_pos hne]
  · intro heq
    rw [addToCart, if_neg (by omega)]
    exact ⟨rfl, rfl⟩

/-- Claim C6: `onPlaceReservation` validates locally first: an empty cart
reports "empty cart", a present cart with a whitespace-only customer name
reports "name required", and in both cases no remote insert is attempted and
the cart is unchanged. -/
theorem C6_local_validation_before_remote (cart : State) (customerName : String)
    (insertReservation : RemoteResult String)
    (insertItems : List ReservationRow → RemoteResult Unit) :
    (cart.items = [] →
      onPlaceReservation cart customerName insertReservation insertItems =
        { outcome := SubmitOutcome.emptyCart, cart := cart
          reservationInsertAttempted := false, itemsInsertAttempted := false
          rowsSent := none }) ∧
    (cart.items ≠ [] → trimStr customerName = "" →
      onPlaceReservation cart customerName insertReservation insertItems =
        { outcome := SubmitOutcome.nameRequired, cart := cart
          reservationInsertAttempted := false, itemsInsertAttempted := false
          rowsSent := none }) := by
  constructor
  · intro hempty
    unfold onPlaceReservation
    rw [if_pos (by simp [hempty])]
  · intro hne hname
    have hlen : ¬ cart.items.length = 0 := by
      simpa [List.length_eq_zero] using hne
    unfold onPlaceReservation
    rw [if_neg hlen, if_pos hname]

/-- Claim C1: once local validation passes, the cart is cleared exactly when
both remote writes succeed; a line-items failure after a successful
reservation insert surfaces that error verbatim and leaves the cart
untouched (no compensation), and double success clears the cart and signals
completion. -/
theorem C1_clear_iff_both_writes_succeed (cart : State) (customerName : String)
    (insertReservation : RemoteResult String)
    (insertItems : List ReservationRow → RemoteResult Unit)
    (hne : cart.items ≠ []) (hname : trimStr customerName ≠ "") :
    ((onPlaceReservation cart customerName insertReservation insertItems).cart.items = [] ↔
      (∃ rid, insertReservation = RemoteResult.ok rid ∧
        insertItems (reservationRows rid cart.items) = RemoteResult.ok ())) ∧
    (∀ rid m, insertReservation = RemoteResult.ok rid →
      insertItems (reservationRows rid cart.items) = RemoteResult.err m →
      (onPlaceReservation cart customerName insertReservation insertItems).outcome =
        SubmitOutcome.remoteError m ∧
      (onPlaceReservation cart customerName insertReservation insertItems).cart = cart) ∧
    (∀ rid, insertReservation = RemoteResult.ok rid →
      insertItems (reservationRows rid cart.items) = RemoteResult.ok () →
      (onPlaceReservation cart customerName insertReservation insertItems).outcome =
        SubmitOutcome.success ∧
      (onPlaceReservation cart customerName insertReservation insertItems).cart.items = []) := by
  have hlen : ¬ cart.items.length = 0 := by
    simpa [List.length_eq_zero] using hne
  cases hres : insertReservation with
  | err m =>
      have hval : onPlaceReservation cart customerName (RemoteResult.err m) insertItems =
          { outcome := SubmitOutcome.remoteError m, cart := cart
            reservationInsertAttempted := true, itemsInsertAttempted := false
            rowsSent := none } := by
        simp only [onPlaceReservation, if_neg hlen, if_neg hname]
      rw [hval]
      refine ⟨?_, ?_, ?_⟩
      · constructor
        · intro h
          exact absurd h hne
        · rintro ⟨rid, hrid, -⟩
          exact RemoteResult.noConfusion hrid
      · intro rid m' hrid _
        exact RemoteResult.noConfusion hrid
      · intro rid hrid _
        exact RemoteResult.noConfusion hrid
  | ok rid =>
      cases hitems : insertItems (reservationRows rid cart.items) with
      | err m =>
          have hval : onPlaceReservation cart customerName (RemoteResult.ok rid) insertItems =
              { outcome := SubmitOutcome.remoteError m, cart := cart
                reservationInsertAttempted := true, itemsInsertAttempted := true
                rowsSent := some (reservationRows rid cart.items) } := by
            simp only [onPlaceReservation, if_neg hlen, if_neg hname, hitems]
          rw [hval]
          refine ⟨?_, ?_, ?_⟩
          · constructor
            · intro h
              exact absurd h hne
            · rintro ⟨rid', hrid', hok'⟩
              injection hrid' with hr
              subst hr
              rw [hitems] at hok'
              exact RemoteResult.noConfusion hok'
          · intro rid' m' hrid' herr'
            injection hrid' with hr
            subst hr
            rw [hitems] at herr'
            injection herr' with hm
            subst hm
            exact ⟨rfl, rfl⟩
          · intro rid' hrid' hok'
            injection hrid' with hr
            subst hr
            rw [hitems] at hok'
            exact RemoteResult.noConfusion hok'
      | ok u =>
          have hval : onPlaceReservation cart customerName (RemoteResult.ok rid) insertItems =
              { outcome := SubmitOutcome.success, cart := clear cart
                reservationInsertAttempted := true, itemsInsertAttempted := true
                rowsSent := some (reservationRows rid cart.items) } := by
            simp only [onPlaceReservation, if_neg hlen, if_neg hname, hitems]
          rw [hval]
          refine ⟨?_, ?_, ?_⟩
          · constructor
            · intro _
              exact ⟨rid, rfl, by rw [hitems]⟩
            · intro _
              simp [clear, reducer]
          · intro rid' m' hrid' herr'
            injection hrid' with hr
            subst hr
            rw [hitems] at herr'
            exact RemoteResult.noConfusion herr'
          · intro rid' hrid' _
            exact ⟨rfl, by simp [clear, reducer]⟩

/-
Concrete fixtures used by the witnesses below.
-/

/-- A donut line item used as a concrete fixture. -/
def donutItemW : CartItem :=
  { id := "d1", type := CartItemType.donut, productId := "p2", name := "Choco"
    unitPrice := 2, qty := 3, imageUrl := none, variant := some "choco"
    choices := none }

/-- A one-item cart fixture. -/
def cartW : State := { items := [donutItemW] }

/-- An `addDonut` payload matching `donutItemW` on productId and variant but
with a different name and unit price. -/
def donutPayloadW : DonutPayload :=
  { productId := "p2", name := "Choco Donut", unitPrice := 3, qty := 2
    imageUrl := none, variant := some "choco" }

/-- Three increments against capacity 2: the third is rejected. -/
def opsW3 : List SelOp := [SelOp.inc "A", SelOp.inc "B", SelOp.inc "A"]

/-- The spec scenario: donut A incremented four times, then donut B twice. -/
def opsW4 : List SelOp :=
  [SelOp.inc "A", SelOp.inc "A", SelOp.inc "A", SelOp.inc "A",
   SelOp.inc "B", SelOp.inc "B"]

/-- Witness for C1: with a non-empty cart and name, a failing line-items
insert after a successful reservation insert reports the error verbatim and
leaves the cart unchanged. -/
theorem C1_witness :
    (onPlaceReservation cartW "Ann" (RemoteResult.ok "r1")
      (fun _ => RemoteResult.err "boom")).outcome = SubmitOutcome.remoteError "boom" ∧
    (onPlaceReservation cartW "Ann" (RemoteResult.ok "r1")
      (fun _ => RemoteResult.err "boom")).cart = cartW := by
  have h := C1_clear_iff_both_writes_succeed cartW "Ann" (RemoteResult.ok "r1")
    (fun _ => RemoteResult.err "boom") (by decide) (by decide)
  exact h.2.1 "r1" "boom" rfl rfl

/-- Witness for C2 (amended): adding a matching donut to a one-donut cart
merges into that item. -/
theorem C2_witness :
    (∃ i ∈ cartW.items, donutMatch donutPayloadW i = true) ∧
    (addDonut "n9" donutPayloadW cartW).items = [{ donutItemW with qty := 5 }] := by
  have hex : ∃ i ∈ cartW.items, donutMatch donutPayloadW i = true :=
    ⟨donutItemW, by decide, by decide⟩
  refine ⟨hex, ?_⟩
  have h := (C2_addDonut_merge_or_prepend "n9" donutPayloadW cartW).1 hex
  rcases h with ⟨j, hj, hm, hmin, heq⟩
  have hj0 : j = 0 := by
    have h1 : j < 1 := by simpa [cartW] using hj
    omega
  subst hj0
  rw [heq]
  have hg : cartW.items.get ⟨0, hj⟩ = donutItemW := rfl
  rw [hg]
  decide

/-- Witness for C3: after `inc A, inc B, inc A` at capacity 2 the third
increment was rejected, count "A" is 1, decrement removes its entry, and a
further increment is a no-op. -/
theorem C3_witness :
    totalSelected (runOps 2 opsW3) ≤ 2 ∧
    lookupD (runOps 2 opsW3) "A" = 1 ∧
    (("A", 0) : String × ℕ) ∉ dec "A" (runOps 2 opsW3) ∧
    (("A", 1) : String × ℕ) ∉ dec "A" (runOps 2 opsW3) ∧
    inc 2 "C" (runOps 2 opsW3) = runOps 2 opsW3 := by
  have h := C3_selection_invariant 2 opsW3
  exact ⟨h.1, by decide, h.2.2.2 "A" (by decide) 0, h.2.2.2 "A" (by decide) 1,
    h.2.2.1 "C" (by decide)⟩

/-- Witness for C4: the spec scenario — capacity-6 box, A incremented four
times then B twice — confirms with snapshot `{6, [{A,4},{B,2}]}`. -/
theorem C4_witness :
    totalSelected (runOps 6 opsW4) = 6 ∧
    (addToCart 6 (runOps 6 opsW4) "bx" "Box 6" 12 none "f1" { items := [] }).1 =
      ConfirmResult.added
        { boxSize := 6, donuts := [{ donutId := "A", qty := 4 }, { donutId := "B", qty := 2 }] } := by
  have h := (C4_confirm_requires_full_box 6 (runOps 6 opsW4) "bx" "Box 6" 12 none "f1"
    { items := [] }).2 (by decide)
  refine ⟨by decide, ?_⟩
  rw [h.1]
  decide

/-- Witness for C6: an empty cart reports "empty cart"; a whitespace-only
name on a non-empty cart reports "name required" with the cart unchanged and
no insert attempted. -/
theorem C6_witness :
    (onPlaceReservation { items := [] } "Ann" (RemoteResult.ok "r1")
      (fun _ => RemoteResult.ok ())).outcome = SubmitOutcome.emptyCart ∧
    (onPlaceReservation cartW "   " (RemoteResult.ok "r1")
      (fun _ => RemoteResult.ok ())).outcome = SubmitOutcome.nameRequired ∧
    (onPlaceReservation cartW "   " (RemoteResult.ok "r1")
      (fun _ => RemoteResult.ok ())).cart = cartW ∧
    (onPlaceReservation cartW "   " (RemoteResult.ok "r1")
      (fun _ => RemoteResult.ok ())).reservationInsertAttempted = false := by
  have h1 := (C6_local_validation_before_remote { items := [] } "Ann"
    (RemoteResult.ok "r1") (fun _ => RemoteResult.ok ())).1 rfl
  have h2 := (C6_local_validation_before_remote cartW "   "
    (RemoteResult.ok "r1") (fun _ => RemoteResult.ok ())).2 (by decide) (by decide)
  exact ⟨by rw [h1], by rw [h2], by rw [h2], by rw [h2]⟩

/-- Witness for C8: removing an absent id is a no-op; removing the only
matching item leaves the rest. -/
theorem C8_witness :
    removeItem "zzz" cartW = cartW ∧ (removeItem "d1" cartW).items = [] := by
  refine ⟨(C8_removeItem_filters cartW "zzz").2.1 (by decide), ?_⟩
  have h := (C8_removeItem_filters cartW "d1").2.2 [] donutItemW [] rfl (by decide)
    (by simp) (by simp)
  simpa using h

/-- Witness for C9: setting quantity −5 on the matching donut clamps it
to 1. -/
theorem C9_witness :
    ((cartW.items.get ⟨0, by decide⟩).id = "d1" ∧
      (cartW.items.get ⟨0, by decide⟩).type = CartItemType.donut) ∧
    (setDonutQty "d1" (-5) cartW).items.get ⟨0, by decide⟩ =
      { donutItemW with qty := 1 } := by
  refine ⟨⟨by decide, by decide⟩, ?_⟩
  have h := (C9_setDonutQty_clamps_to_one cartW "d1" (-5)).2 0 (by decide)
  rcases h with ⟨hj', hmatch, hother⟩
  have hfact := hmatch ⟨by decide, by decide⟩
  exact hfact.1.trans (by decide)

/-- Witness for C10: merging the fixture payload keeps the stored name and
unit price and only adds the quantities. -/
theorem C10_witness :
    donutMatch donutPayloadW (cartW.items.get ⟨0, by decide⟩) = true ∧
    (addDonut "n9" donutPayloadW cartW).items.length = 1 ∧
    ((addDonut "n9" donutPayloadW cartW).items.get ⟨0, by decide⟩).qty = 5 ∧
    ((addDonut "n9" donutPayloadW cartW).items.get ⟨0, by decide⟩).name = "Choco" ∧
    ((addDonut "n9" donutPayloadW cartW).items.get ⟨0, by decide⟩).unitPrice = 2 := by
  have h := C10_merge_keeps_original_fields "n9" donutPayloadW cartW 0 (by decide)
    (by decide) (fun k hk hk0 => absurd hk0 (Nat.not_lt_zero k))
  rcases h with ⟨hj', hlen, hid, hname, hprice, himg, hvar, htype, hqty, hframe⟩
  refine ⟨by decide, hlen.trans (by decide), ?_, ?_, ?_⟩
  · exact hqty.trans (by decide)
  · exact hname.trans (by decide)
  · exact hprice.trans (by decide)

end Dunkin
